import Mathlib

/-!
A shallow embedding of the webpack `Compiler` orchestrator
(`lib/Compiler.js` of the analysed repository): the `run`/`watch` entry
points, the staged build pipeline driven through hooks, record
reading/writing, asset emission and child-compiler spawning.

External collaborators (hook taps, the filesystem adapter, `Compilation`
methods such as `finish`/`seal`/`getPath`, the JSON parser, `path.dirname`)
are modelled as oracle parameters bundled in `RunEnv`; the control flow,
state mutation and error wrapping of `Compiler.js` itself are modelled
faithfully, and every hook/filesystem interaction is recorded in an event
trace.
-/

namespace Webpack

/-- JSON-like values, the shape of parsed record stores
(`this.records` in `Compiler.js`). -/
inductive Rec where
  | null
  | bool (b : Bool)
  | num (n : Int)
  | str (s : String)
  | arr (items : List Rec)
  | obj (fields : List (String × Rec))
deriving Repr

/-- JavaScript truthiness of a record value (`if (!x)` tests in the source). -/
def Rec.truthy : Rec → Bool
  | .null => false
  | .bool b => b
  | .num n => n != 0
  | .str s => s != ""
  | .arr _ => true
  | .obj _ => true

/-- Property read `r[name]` on an object; `undefined` is `none`. -/
def Rec.getField : Rec → String → Option Rec
  | .obj fs, n => fs.lookup n
  | _, _ => none

/-- Assignment into an association list: overwrite an existing key in place,
otherwise append (JavaScript property-insertion order). -/
def setAssoc : List (String × Rec) → String → Rec → List (String × Rec)
  | [], n, v => [(n, v)]
  | (k, w) :: rest, n, v =>
      if k = n then (n, v) :: rest else (k, w) :: setAssoc rest n v

/-- Property write `r[name] = v` on an object (no-op on non-objects,
which the record-store discipline never produces). -/
def Rec.setField : Rec → String → Rec → Rec
  | .obj fs, n, v => .obj (setAssoc fs n v)
  | r, _, _ => r

/-- Array element read `r[i]`; `undefined` is `none`. -/
def Rec.index : Rec → Nat → Option Rec
  | .arr items, i => items.get? i
  | _, _ => none

/-- Array push `r[name].push(v)` when `r[name]` is an array (no-op otherwise). -/
def Rec.pushField : Rec → String → Rec → Rec
  | .obj fs, n, v =>
      match fs.lookup n with
      | some (.arr items) => .obj (setAssoc fs n (.arr (items ++ [v])))
      | _ => .obj fs
  | r, _, _ => r

/-- Asset content: `source.source()` either is already a Buffer or is a
string that `emitAssets` coerces with `Buffer.from(content, "utf8")`. -/
inductive Content where
  | buffer (bytes : List UInt8)
  | text (s : String)
deriving Repr, DecidableEq

/-- The `Buffer.isBuffer(content) ? content : Buffer.from(content, "utf8")`
coercion in `emitAssets`. -/
def Content.toBuffer : Content → List UInt8
  | .buffer b => b
  | .text s => s.toUTF8.toList

/-- One produced asset: its content source and the `existsAt`/`emitted`
bookkeeping fields that `emitAssets` maintains. -/
structure Asset where
  source : Content
  existsAt : Option String := none
  emitted : Bool := false
deriving Repr, DecidableEq

/-- The mutable compiler fields that the orchestrator code reads or writes. -/
structure CompilerState where
  running : Bool
  fileTimestamps : List (String × Nat)
  contextTimestamps : List (String × Nat)
  records : Rec
  recordsInputPath : Option String
  recordsOutputPath : Option String
  outputPath : String
deriving Repr

/-- One Compilation Session: `id` is the pass counter at which
`newCompilation` constructed it (a stand-in for object identity: each call
to `compile` builds a session with a fresh id). -/
structure Compilation where
  id : Nat
  assets : List (String × Asset)
  needAdditionalPass : Bool
deriving Repr, DecidableEq

/-- Errors delivered to callbacks: the `ConcurrentCompilationError` guard
failure, or an error value carrying a message (hook failures, filesystem
failures, the wrapped record-parse failure). -/
inductive BuildErr where
  | concurrent
  | external (msg : String)
deriving Repr, DecidableEq

/-- The message of an error value. -/
def BuildErr.message : BuildErr → String
  | .concurrent => "You ran Webpack twice. Each instance only supports a single concurrent compilation at a moment."
  | .external m => m

/-- The `Stats` summary handed to the `done` hook; `run` populates
`startTime`/`endTime` on every path that reaches `done`. -/
structure Stats where
  startTime : Option Nat
  endTime : Option Nat
deriving Repr, DecidableEq

/-- Query stripping `targetFile.substr(0, targetFile.indexOf("?"))` when a query string is
present: everything before the first `?`. -/
def stripQuery (s : String) : String :=
  match s.splitOn "?" with
  | [] => s
  | x :: _ => x

/-- Separator test `targetFile.match(/\/|\\/)`: does the file name contain a directory
separator. -/
def hasDirSep (s : String) : Bool :=
  s.any (fun c => c == '/' || c == '\\')

/-- Every hook invocation and filesystem interaction of one `run`, in
program order (emission's concurrent fan-out is recorded in asset-list
order). `i` is the pass counter: 0 for the first compile, incremented on
each additional pass. -/
inductive Ev where
  | beforeRunHook
  | runHook
  | statRecords (p : String)
  | readRecordsFile (p : String)
  | beforeCompileHook (i : Nat)
  | compileHook (i : Nat)
  | thisCompilationHook (i : Nat)
  | compilationHook (i : Nat)
  | makeHook (i : Nat)
  | finishStep (i : Nat)
  | sealStep (i : Nat)
  | afterCompileHook (i : Nat)
  | shouldEmitHook (i : Nat)
  | emitHook (i : Nat)
  | mkdirDir (p : String)
  | writeAsset (p : String) (content : List UInt8)
  | afterEmitHook (i : Nat)
  | needAdditionalPassHook (i : Nat)
  | additionalPassHook (i : Nat)
  | emitRecordsCall
  | writeRecordsFile (p : String)
  | doneHook (i : Nat)
deriving Repr, DecidableEq

/-- The external world of one `run`: outcomes of hook tap sequences
(`none` = every tap succeeded, `some m` = the hook failed with message
`m`), the filesystem adapter, the JSON parser, external `Compilation`
steps, and the clock. Pass-dependent behaviour is indexed by the pass
counter. -/
structure RunEnv where
  beforeRunErr : Option String
  runHookErr : Option String
  statExists : String → Bool
  readFile : String → Except String String
  parseJson : String → Except String Rec
  beforeCompileErr : Nat → Option String
  makeErr : Nat → Option String
  sealErr : Nat → Option String
  afterCompileErr : Nat → Option String
  madeAssets : Nat → List (String × Asset)
  shouldEmitResult : Nat → Option Bool
  emitHookErr : Nat → Option String
  afterEmitErr : Nat → Option String
  needAdditionalPassResult : Nat → Bool
  doneErr : Nat → Option String
  additionalPassErr : Nat → Option String
  getPath : String → String
  join : String → String → String
  dirname : String → String
  mkdirpErr : String → Option String
  writeFileErr : String → Option String
  startTime : Nat
  endTime : Nat → Nat

/-- The stats object built on each path that reaches `done` during pass
`i`: `startTime` from the single `Date.now()` at the start of `run`,
`endTime` from `Date.now()` at report time. -/
def mkStats (env : RunEnv) (i : Nat) : Stats :=
  { startTime := some env.startTime, endTime := some (env.endTime i) }

/-- Model of `Compiler.readRecords`: no input path sets `records = {}`; a stat
error (nonexistent file) is ignored; a read error propagates; a parse
error is wrapped with the fixed prefix and leaves `records` untouched. -/
def readRecordsModel (env : RunEnv) (st : CompilerState) :
    CompilerState × Option BuildErr × List Ev :=
  match st.recordsInputPath with
  | none => ({ st with records := .obj [] }, none, [])
  | some p =>
    if env.statExists p then
      match env.readFile p with
      | .error m => (st, some (.external m), [.statRecords p, .readRecordsFile p])
      | .ok content =>
        match env.parseJson content with
        | .error m =>
            (st, some (.external ("Cannot parse records: " ++ m)),
             [.statRecords p, .readRecordsFile p])
        | .ok r =>
            ({ st with records := r }, none, [.statRecords p, .readRecordsFile p])
    else (st, none, [.statRecords p])

/-- The `recordsOutputPathDirectory` computation in `Compiler.emitRecords`:
the prefix of the path before the later of the last `/` and the last `\`;
`none` when there is no separator or that prefix is empty (JavaScript
treats `""` as falsy, so no `mkdirp` happens for it either). -/
def recordsDirOf (p : String) : Option String :=
  match p.data.reverse.findIdx? (fun c => c == '/' || c == '\\') with
  | none => none
  | some j =>
    let k := p.length - 1 - j
    if k = 0 then none else some (String.mk (p.data.take k))

/-- Model of `Compiler.emitRecords`: no output path is an immediate success with no
filesystem access; otherwise `mkdirp` the directory prefix when it is
non-empty, then write the serialized store. -/
def emitRecordsModel (env : RunEnv) (st : CompilerState) :
    Option BuildErr × List Ev :=
  match st.recordsOutputPath with
  | none => (none, [.emitRecordsCall])
  | some p =>
    match recordsDirOf p with
    | some dir =>
      match env.mkdirpErr dir with
      | some m => (some (.external m), [.emitRecordsCall, .mkdirDir dir])
      | none =>
        match env.writeFileErr p with
        | some m =>
            (some (.external m), [.emitRecordsCall, .mkdirDir dir, .writeRecordsFile p])
        | none => (none, [.emitRecordsCall, .mkdirDir dir, .writeRecordsFile p])
    | none =>
      match env.writeFileErr p with
      | some m => (some (.external m), [.emitRecordsCall, .writeRecordsFile p])
      | none => (none, [.emitRecordsCall, .writeRecordsFile p])

/-- The `writeOut` closure of `Compiler.emitAssets` for one asset: compare
the computed target path with `existsAt`; equal means skip the write and
clear `emitted`; different means coerce the content to a buffer, update
`existsAt`, set `emitted` and issue the write. Returns the updated asset,
the error of the step (if any) and its events. -/
def writeOutModel (env : RunEnv) (outPath targetFile : String) (a : Asset) :
    Asset × Option BuildErr × List Ev :=
  let targetPath := env.join outPath targetFile
  if a.existsAt = some targetPath then
    ({ a with emitted := false }, none, [])
  else
    let content := a.source.toBuffer
    let a' : Asset := { a with existsAt := some targetPath, emitted := true }
    match env.writeFileErr targetPath with
    | some m => (a', some (.external m), [.writeAsset targetPath content])
    | none => (a', none, [.writeAsset targetPath content])

/-- The per-asset iteratee of `Compiler.emitAssets`: strip the query
string; when the target file name contains a directory separator, `mkdirp`
the joined directory first (a failure there skips `writeOut` for this
asset), then run `writeOut`. -/
def emitOneModel (env : RunEnv) (outPath : String) (file : String) (a : Asset) :
    Asset × Option BuildErr × List Ev :=
  let targetFile := stripQuery file
  if hasDirSep targetFile then
    let dir := env.join outPath (env.dirname targetFile)
    match env.mkdirpErr dir with
    | some m => (a, some (.external m), [.mkdirDir dir])
    | none =>
      let (a', e, evs) := writeOutModel env outPath targetFile a
      (a', e, .mkdirDir dir :: evs)
  else writeOutModel env outPath targetFile a

/-- Model of the `asyncLib.forEach` over the asset map: every iteration is started
regardless of failures in the others (concurrent fan-out, no
cancellation); the surfaced error is the first failing iteration (the
model determinizes completion order to list order). -/
def emitFilesModel (env : RunEnv) (outPath : String) :
    List (String × Asset) → List (String × Asset) × Option BuildErr × List Ev
  | [] => ([], none, [])
  | (file, a) :: rest =>
    let (a', e, evs) := emitOneModel env outPath file a
    let (rest', e2, evs2) := emitFilesModel env outPath rest
    ((file, a') :: rest', (e.or e2 : Option BuildErr), evs ++ evs2)

/-- Model of `Compiler.emitAssets`: the `emit` hook, `mkdirp` of the resolved output
path, the concurrent per-asset writes, then the `afterEmit` hook (reached
only when no write failed). Returns the asset map with updated
`existsAt`/`emitted` fields. -/
def emitAssetsModel (env : RunEnv) (i : Nat) (st : CompilerState)
    (assets : List (String × Asset)) :
    List (String × Asset) × Option BuildErr × List Ev :=
  match env.emitHookErr i with
  | some m => (assets, some (.external m), [.emitHook i])
  | none =>
    let outPath := env.getPath st.outputPath
    match env.mkdirpErr outPath with
    | some m => (assets, some (.external m), [.emitHook i, .mkdirDir outPath])
    | none =>
      let (assets', e, evs) := emitFilesModel env outPath assets
      match e with
      | some err => (assets', some err, .emitHook i :: .mkdirDir outPath :: evs)
      | none =>
        match env.afterEmitErr i with
        | some m =>
            (assets', some (.external m),
             .emitHook i :: .mkdirDir outPath :: evs ++ [.afterEmitHook i])
        | none =>
            (assets', none,
             .emitHook i :: .mkdirDir outPath :: evs ++ [.afterEmitHook i])

/-- Model of `Compiler.compile` for pass `i`: `beforeCompile`, the sync `compile`
hook, `newCompilation` (which fires `thisCompilation` then `compilation`),
the parallel `make` hook, `compilation.finish()`, `compilation.seal`, then
`afterCompile`; the first failure aborts the rest. A successful pass hands
back a fresh session whose assets the external seal produced. -/
def compileStageModel (env : RunEnv) (i : Nat) :
    Except BuildErr Compilation × List Ev :=
  match env.beforeCompileErr i with
  | some m => (.error (.external m), [.beforeCompileHook i])
  | none =>
    let tr0 : List Ev :=
      [.beforeCompileHook i, .compileHook i, .thisCompilationHook i,
       .compilationHook i, .makeHook i]
    match env.makeErr i with
    | some m => (.error (.external m), tr0)
    | none =>
      let tr1 := tr0 ++ [.finishStep i, .sealStep i]
      match env.sealErr i with
      | some m => (.error (.external m), tr1)
      | none =>
        match env.afterCompileErr i with
        | some m => (.error (.external m), tr1 ++ [.afterCompileHook i])
        | none =>
            (.ok { id := i, assets := env.madeAssets i, needAdditionalPass := false },
             tr1 ++ [.afterCompileHook i])

/-- The `onCompiled` callback of `Compiler.run`, iterated over additional
passes (`fuel` bounds the unbounded loop; an exhausted fuel yields outcome
`none`, meaning the build is still in flight). Produces the build outcome,
the trace from the first `beforeCompile` on, and each pass's session as it
stood when its post-compile handling finished. -/
def runPassesModel (env : RunEnv) (st : CompilerState) :
    Nat → Nat → Option (Except BuildErr Stats) × List Ev × List Compilation
  | 0, _ => (none, [], [])
  | fuel + 1, i =>
    match compileStageModel env i with
    | (.error e, tr) => (some (.error e), tr, [])
    | (.ok comp, tr) =>
      let trS := tr ++ [.shouldEmitHook i]
      if env.shouldEmitResult i = some false then
        match env.doneErr i with
        | some m =>
            (some (.error (.external m)), trS ++ [.doneHook i], [comp])
        | none =>
            (some (.ok (mkStats env i)), trS ++ [.doneHook i], [comp])
      else
        match emitAssetsModel env i st comp.assets with
        | (assets', some e, tr2) =>
            (some (.error e), trS ++ tr2, [{ comp with assets := assets' }])
        | (assets', none, tr2) =>
          let comp1 : Compilation := { comp with assets := assets' }
          let trE := trS ++ tr2 ++ [.needAdditionalPassHook i]
          if env.needAdditionalPassResult i then
            let comp2 : Compilation := { comp1 with needAdditionalPass := true }
            match env.doneErr i with
            | some m =>
                (some (.error (.external m)), trE ++ [.doneHook i], [comp2])
            | none =>
              match env.additionalPassErr i with
              | some m =>
                  (some (.error (.external m)),
                   trE ++ [.doneHook i, .additionalPassHook i], [comp2])
              | none =>
                let (out, tr3, ss) := runPassesModel env st fuel (i + 1)
                (out, trE ++ [.doneHook i, .additionalPassHook i] ++ tr3,
                 comp2 :: ss)
          else
            match emitRecordsModel env st with
            | (some e, trR) => (some (.error e), trE ++ trR, [comp1])
            | (none, trR) =>
              match env.doneErr i with
              | some m =>
                  (some (.error (.external m)), trE ++ trR ++ [.doneHook i], [comp1])
              | none =>
                  (some (.ok (mkStats env i)), trE ++ trR ++ [.doneHook i], [comp1])

/-- The full result of one `Compiler.run` invocation. -/
structure RunResult where
  state : CompilerState
  outcome : Option (Except BuildErr Stats)
  trace : List Ev
  sessions : List Compilation
deriving Repr

/-- Model of `Compiler.run`: the concurrency guard returns the
`ConcurrentCompilationError` directly (no `finalCallback`, no state
change); otherwise `running` is set, `beforeRun`, `run` and `readRecords`
execute in order (each failure reaching `finalCallback`), then the
compile/emit/done pass loop runs. `finalCallback` unconditionally clears
`running` before delivering any outcome. -/
def runModel (env : RunEnv) (fuel : Nat) (st : CompilerState) : RunResult :=
  if st.running then
    { state := st, outcome := some (.error .concurrent), trace := [], sessions := [] }
  else
    let st1 : CompilerState := { st with running := true }
    match env.beforeRunErr with
    | some m =>
        { state := { st1 with running := false },
          outcome := some (.error (.external m)),
          trace := [.beforeRunHook], sessions := [] }
    | none =>
      match env.runHookErr with
      | some m =>
          { state := { st1 with running := false },
            outcome := some (.error (.external m)),
            trace := [.beforeRunHook, .runHook], sessions := [] }
      | none =>
        let (st2, rerr, trR) := readRecordsModel env st1
        match rerr with
        | some e =>
            { state := { st2 with running := false },
              outcome := some (.error e),
              trace := .beforeRunHook :: .runHook :: trR, sessions := [] }
        | none =>
          let (out, tr, ss) := runPassesModel env st2 fuel 0
          { state := if out.isSome then { st2 with running := false } else st2,
            outcome := out,
            trace := .beforeRunHook :: .runHook :: trR ++ tr,
            sessions := ss }

/-- Model of `Compiler.watch`: the same concurrency guard; otherwise set `running`,
reset both timestamp tables to fresh empty maps, and hand the compiler to
a new `Watching` (the handle itself is external to this model). -/
def watchModel (st : CompilerState) : Except BuildErr CompilerState :=
  if st.running then .error .concurrent
  else .ok { st with running := true, fileTimestamps := [], contextTimestamps := [] }

/-- The record wiring of `Compiler.createChildCompiler`, for the already
normalized child name (`makePathsRelative` is external): ensure
`records[relName]` is present (create `[]` when the entry is falsy), then
reuse a truthy `records[relName][idx]` as the child's records, or push a
fresh `{}` onto the list otherwise. Returns the child's records and the
parent's updated store. -/
def createChildRecords (records : Rec) (relName : String) (idx : Nat) :
    Rec × Rec :=
  let r1 :=
    match records.getField relName with
    | some v => if v.truthy then records else records.setField relName (.arr [])
    | none => records.setField relName (.arr [])
  match (r1.getField relName).bind (fun v => v.index idx) with
  | some entry =>
      if entry.truthy then (entry, r1) else (.obj [], r1.pushField relName (.obj []))
  | none => (.obj [], r1.pushField relName (.obj []))

/-- The hook names constructed by the `Compiler` constructor, in
declaration order. -/
def compilerHookNames : List String :=
  ["shouldEmit", "done", "additionalPass", "beforeRun", "run", "emit",
   "afterEmit", "thisCompilation", "compilation", "normalModuleFactory",
   "contextModuleFactory", "beforeCompile", "compile", "make",
   "afterCompile", "watchRun", "failed", "invalid", "watchClose",
   "environment", "afterEnvironment", "afterPlugins", "afterResolvers",
   "entryOption"]

/-- The hooks excluded from tap inheritance in `createChildCompiler`. -/
def excludedChildHooks : List String :=
  ["make", "compile", "emit", "afterEmit", "invalid", "done", "thisCompilation"]

/-- A compiler's hook taps: hook name to its tap list. Taps are opaque
(numbered); each hook's `taps` array is held by value, matching the
`slice()` copy `createChildCompiler` takes. -/
def Taps : Type := String → List Nat

/-- A freshly constructed compiler: every hook exists with no taps. -/
def emptyTaps : Taps := fun _ => []

/-- Tap registration `hooks[n].tap(t)`: append `t` to hook `n`'s taps (only existing hooks
can be tapped). -/
def tapOn (h : Taps) (n : String) (t : Nat) : Taps :=
  fun m => if m = n ∧ n ∈ compilerHookNames then h m ++ [t] else h m

/-- A plugin applied at spawn time, seen as its tap registrations. -/
def applyPlugins (h : Taps) (plugins : List (String × Nat)) : Taps :=
  plugins.foldl (fun hh p => tapOn hh p.1 p.2) h

/-- The hook wiring of `Compiler.createChildCompiler`: a fresh child
compiler is built, the `plugins` argument is applied to it, and then for
every hook name of the parent that is not in the excluded list the
child's taps are replaced by a by-value copy (`slice()`) of the parent's
current taps — overwriting whatever the plugins had registered there. The
excluded hooks keep exactly the plugins' registrations. -/
def createChildTaps (parent : Taps) (plugins : List (String × Nat)) : Taps :=
  let afterPlugins := applyPlugins emptyTaps plugins
  fun n =>
    if n ∈ compilerHookNames ∧ n ∉ excludedChildHooks then parent n
    else afterPlugins n

/-- An environment in which every hook tap and filesystem operation
succeeds, the records file does not exist, and the seal produces no
assets. -/
def okEnv : RunEnv where
  beforeRunErr := none
  runHookErr := none
  statExists := fun _ => false
  readFile := fun _ => .error "ENOENT"
  parseJson := fun _ => .error "Unexpected end of JSON input"
  beforeCompileErr := fun _ => none
  makeErr := fun _ => none
  sealErr := fun _ => none
  afterCompileErr := fun _ => none
  madeAssets := fun _ => []
  shouldEmitResult := fun _ => none
  emitHookErr := fun _ => none
  afterEmitErr := fun _ => none
  needAdditionalPassResult := fun _ => false
  doneErr := fun _ => none
  additionalPassErr := fun _ => none
  getPath := fun s => s
  join := fun a b => a ++ "/" ++ b
  dirname := fun s => s
  mkdirpErr := fun _ => none
  writeFileErr := fun _ => none
  startTime := 100
  endTime := fun _ => 200

/-- An idle compiler that already carries timestamp entries from a
previous watch iteration. -/
def st0 : CompilerState where
  running := false
  fileTimestamps := [("src/index.js", 11)]
  contextTimestamps := [("src", 12)]
  records := .obj []
  recordsInputPath := none
  recordsOutputPath := none
  outputPath := "/dist"

/-- An idle compiler whose in-memory records are non-empty and whose
configured records input path does not exist in `okEnv`. -/
def stOldRecords : CompilerState where
  running := false
  fileTimestamps := []
  contextTimestamps := []
  records := .obj [("old", .num 1)]
  recordsInputPath := some "/prev/records.json"
  recordsOutputPath := none
  outputPath := "/dist"

/-- An environment whose only `shouldEmit` tap vetoes emission on every
pass, while the seal produces one asset and a records output path exists
to observe (missing) record persistence. -/
def vetoEnv : RunEnv :=
  { okEnv with
      shouldEmitResult := fun _ => some false
      madeAssets := fun _ => [("bundle.js", { source := .text "content" })] }

/-- An idle compiler with a configured records output path. -/
def stWithRecordsOut : CompilerState :=
  { st0 with recordsOutputPath := some "/rec/records.json" }

/-- An environment that requests exactly one additional pass (after pass
0) and succeeds everywhere. -/
def addPassEnv : RunEnv :=
  { okEnv with needAdditionalPassResult := fun i => i == 0 }

/-- An environment in which the records file exists but holds malformed
content. -/
def badRecordsEnv : RunEnv :=
  { okEnv with
      statExists := fun _ => true
      readFile := fun _ => .ok "not json"
      parseJson := fun _ => .error "Unexpected token o in JSON at position 1" }

/-- Helper: `readRecords` can only change the `records` field of the
compiler state. -/
theorem readRecords_state_shape (env : RunEnv) (st : CompilerState) :
    ∃ r, (readRecordsModel env st).1 = { st with records := r } := by
  obtain ⟨running, fts, cts, recs, rip, rop, op⟩ := st
  unfold readRecordsModel
  dsimp only
  cases rip with
  | none => exact ⟨.obj [], rfl⟩
  | some p =>
    cases hs : env.statExists p with
    | false => refine ⟨recs, ?_⟩; simp [hs]
    | true =>
      cases hr : env.readFile p with
      | error m => refine ⟨recs, ?_⟩; simp [hs, hr]
      | ok content =>
        cases hj : env.parseJson content with
        | error m => refine ⟨recs, ?_⟩; simp [hs, hr, hj]
        | ok r => refine ⟨r, ?_⟩; simp [hs, hr, hj]

/-- Helper: a completed (or still-running) `run` can only have changed the
`running` and `records` fields of the compiler state. -/
theorem runModel_state_shape (env : RunEnv) (fuel : Nat) (st : CompilerState)
    (h : st.running = false) :
    ∃ b r, (runModel env fuel st).state = { st with running := b, records := r } := by
  unfold runModel
  rw [if_neg (by simp [h])]
  cases hbr : env.beforeRunErr with
  | some m => exact ⟨false, st.records, rfl⟩
  | none =>
    cases hrh : env.runHookErr with
    | some m => exact ⟨false, st.records, rfl⟩
    | none =>
      obtain ⟨r, hr⟩ := readRecords_state_shape env { st with running := true }
      rcases hR : readRecordsModel env { st with running := true } with ⟨st2, rerr, trR⟩
      rw [hR] at hr
      simp only at hr
      simp only [hR]
      cases rerr with
      | some e => exact ⟨false, r, by rw [hr]⟩
      | none =>
        rcases hP : runPassesModel env st2 fuel 0 with ⟨out, tr, ss⟩
        simp only [hP]
        cases out with
        | some o => exact ⟨false, r, by simp [hr]⟩
        | none => exact ⟨true, r, by simp [hr]⟩

/-- C1: contrary to the claim, it is `watch()` that resets both timestamp
tables to fresh empty maps, while `run()` never touches them: on the
compiler `st0`, whose tables are non-empty, a complete successful `run`
leaves both tables exactly as they were, and `watch` empties both. -/
theorem C1_counterexample :
    (runModel okEnv 1 st0).state.fileTimestamps = [("src/index.js", 11)] ∧
    (runModel okEnv 1 st0).state.contextTimestamps = [("src", 12)] ∧
    ([("src/index.js", 11)] : List (String × Nat)) ≠ [] ∧
    (runModel okEnv 1 st0).outcome = some (.ok { startTime := some 100, endTime := some 200 }) ∧
    watchModel st0 =
      .ok { st0 with running := true, fileTimestamps := [], contextTimestamps := [] } := by
  refine ⟨rfl, rfl, by simp, rfl, rfl⟩

/-- C1 (amended): `run()` leaves both timestamp tables untouched (they
are never reset on the one-shot path), while `watch()` resets both to
empty maps before constructing the `Watching` handle. -/
theorem C1_run_keeps_watch_resets_timestamps (env : RunEnv) (fuel : Nat)
    (st : CompilerState) (h : st.running = false) :
    (runModel env fuel st).state.fileTimestamps = st.fileTimestamps ∧
    (runModel env fuel st).state.contextTimestamps = st.contextTimestamps ∧
    watchModel st =
      .ok { st with running := true, fileTimestamps := [], contextTimestamps := [] } := by
  obtain ⟨b, r, hb⟩ := runModel_state_shape env fuel st h
  exact ⟨by rw [hb], by rw [hb], by simp [watchModel, h]⟩

/-- C1 witness: the amended statement instantiated on the concrete idle
compiler `st0` and the all-success environment. -/
theorem C1_witness :
    (runModel okEnv 2 st0).state.fileTimestamps = st0.fileTimestamps ∧
    (runModel okEnv 2 st0).state.contextTimestamps = st0.contextTimestamps ∧
    watchModel st0 =
      .ok { st0 with running := true, fileTimestamps := [], contextTimestamps := [] } :=
  C1_run_keeps_watch_resets_timestamps okEnv 2 st0 rfl

/-- C3: calling `run()` on an already-running compiler delivers the
concurrency-guard error immediately; the returned state is the input
state itself (timestamp tables, records and the `running` flag all
unchanged), no hook fires and no session is created. -/
theorem C3_concurrent_run_guard (env : RunEnv) (fuel : Nat)
    (st : CompilerState) (h : st.running = true) :
    runModel env fuel st =
      { state := st, outcome := some (.error .concurrent), trace := [],
        sessions := [] } := by
  simp [runModel, h]

/-- C3 witness: the guard on a concrete running compiler. -/
theorem C3_witness :
    runModel okEnv 1 { st0 with running := true } =
      { state := { st0 with running := true },
        outcome := some (.error .concurrent), trace := [], sessions := [] } :=
  C3_concurrent_run_guard okEnv 1 { st0 with running := true } rfl

/-- C4: whenever the final callback of a build attempt started by `run()`
fires — delivering any outcome, success or failure on any stage — the
`running` flag has been reset to false. -/
theorem C4_running_cleared (env : RunEnv) (fuel : Nat) (st : CompilerState)
    (h : st.running = false) (r : Except BuildErr Stats)
    (hout : (runModel env fuel st).outcome = some r) :
    (runModel env fuel st).state.running = false := by
  unfold runModel at hout ⊢
  rw [if_neg (by simp [h])] at hout ⊢
  cases hbr : env.beforeRunErr with
  | some m => simp [hbr]
  | none =>
    cases hrh : env.runHookErr with
    | some m => simp [hbr, hrh]
    | none =>
      rcases hR : readRecordsModel env { st with running := true } with ⟨st2, rerr, trR⟩
      simp only [hbr, hrh, hR] at hout ⊢
      cases rerr with
      | some e => simp
      | none =>
        rcases hP : runPassesModel env st2 fuel 0 with ⟨out, tr, ss⟩
        simp only [hP] at hout ⊢
        cases out with
        | some o => simp
        | none => simp at hout

/-- C4 witness: a complete successful build on the concrete compiler. -/
theorem C4_witness : (runModel okEnv 1 st0).state.running = false :=
  C4_running_cleared okEnv 1 st0 rfl
    (.ok { startTime := some 100, endTime := some 200 }) rfl

/-- Helper: the events of `readRecords` are only `stat` and `readFile`
interactions. -/
theorem readRecords_events (env : RunEnv) (st : CompilerState) :
    ∀ e ∈ (readRecordsModel env st).2.2,
      (∃ p, e = Ev.statRecords p) ∨ (∃ p, e = Ev.readRecordsFile p) := by
  unfold readRecordsModel
  cases hp : st.recordsInputPath with
  | none => simp
  | some p =>
    cases hs : env.statExists p with
    | false => simp [hs]
    | true =>
      cases hr : env.readFile p with
      | error m => simp [hs, hr]
      | ok content =>
        cases hj : env.parseJson content with
        | error m => simp [hs, hr, hj]
        | ok r => simp [hs, hr, hj]

/-- Helper: a successful compile stage produced the fresh pass-`i` session
and fired exactly the stage sequence `beforeCompile`, `compile`,
`thisCompilation`, `compilation`, `make`, finish, seal, `afterCompile`. -/
theorem compileStage_ok (env : RunEnv) (i : Nat) (comp : Compilation)
    (h : (compileStageModel env i).1 = .ok comp) :
    comp = { id := i, assets := env.madeAssets i, needAdditionalPass := false } ∧
    (compileStageModel env i).2 =
      [.beforeCompileHook i, .compileHook i, .thisCompilationHook i,
       .compilationHook i, .makeHook i, .finishStep i, .sealStep i,
       .afterCompileHook i] := by
  unfold compileStageModel at h ⊢
  cases hbc : env.beforeCompileErr i with
  | some m => simp [hbc] at h
  | none =>
    cases hmk : env.makeErr i with
    | some m => simp [hbc, hmk] at h
    | none =>
      cases hsl : env.sealErr i with
      | some m => simp [hbc, hmk, hsl] at h
      | none =>
        cases hac : env.afterCompileErr i with
        | some m => simp [hbc, hmk, hsl, hac] at h
        | none =>
          simp only [hbc, hmk, hsl, hac] at h ⊢
          exact ⟨by simp at h; exact h.symm, by simp⟩

/-- C2 counterexample: a vetoed build with a configured records output
path never invokes `emitRecords` — the claim's "proceeds straight to
record persistence (step 8)" is false on the code. The full trace shows
the build jumping from `shouldEmit` directly to `done`, succeeding, with
no emission and no record persistence. -/
theorem C2_counterexample :
    (runModel vetoEnv 1 stWithRecordsOut).outcome =
      some (.ok { startTime := some 100, endTime := some 200 }) ∧
    (runModel vetoEnv 1 stWithRecordsOut).trace =
      [.beforeRunHook, .runHook, .beforeCompileHook 0, .compileHook 0,
       .thisCompilationHook 0, .compilationHook 0, .makeHook 0, .finishStep 0,
       .sealStep 0, .afterCompileHook 0, .shouldEmitHook 0, .doneHook 0] ∧
    Ev.emitRecordsCall ∉
      ([.beforeRunHook, .runHook, .beforeCompileHook 0, .compileHook 0,
        .thisCompilationHook 0, .compilationHook 0, .makeHook 0, .finishStep 0,
        .sealStep 0, .afterCompileHook 0, .shouldEmitHook 0, .doneHook 0] : List Ev) := by
  refine ⟨rfl, rfl, by decide⟩

/-- C2 (amended): when the `shouldEmit` bail result is `false`, the build
writes no asset (emission is skipped entirely), skips record persistence
as well, and proceeds directly to the `done` hook with a stats summary
whose start and end timestamps are populated; the outcome is a success. -/
theorem C2_veto_path (env : RunEnv) (fuel : Nat) (st : CompilerState)
    (comp : Compilation)
    (h : st.running = false)
    (hbr : env.beforeRunErr = none)
    (hrh : env.runHookErr = none)
    (hrr : (readRecordsModel env { st with running := true }).2.1 = none)
    (hc : (compileStageModel env 0).1 = .ok comp)
    (hv : env.shouldEmitResult 0 = some false)
    (hd : env.doneErr 0 = none) :
    (runModel env (fuel + 1) st).outcome = some (.ok (mkStats env 0)) ∧
    (mkStats env 0).startTime.isSome = true ∧
    (mkStats env 0).endTime.isSome = true ∧
    (∀ p c, Ev.writeAsset p c ∉ (runModel env (fuel + 1) st).trace) ∧
    (∀ i, Ev.emitHook i ∉ (runModel env (fuel + 1) st).trace) ∧
    Ev.emitRecordsCall ∉ (runModel env (fuel + 1) st).trace ∧
    Ev.doneHook 0 ∈ (runModel env (fuel + 1) st).trace := by
  obtain ⟨hcomp, htrC⟩ := compileStage_ok env 0 comp hc
  rcases hR : readRecordsModel env { st with running := true } with ⟨st2, rerr, trR⟩
  rw [hR] at hrr
  simp only at hrr
  subst hrr
  have hrun : runModel env (fuel + 1) st =
      { state := { st2 with running := false },
        outcome := some (.ok (mkStats env 0)),
        trace := .beforeRunHook :: .runHook :: trR ++
          ([.beforeCompileHook 0, .compileHook 0, .thisCompilationHook 0,
            .compilationHook 0, .makeHook 0, .finishStep 0, .sealStep 0,
            .afterCompileHook 0, .shouldEmitHook 0, .doneHook 0]),
        sessions := [comp] } := by
    unfold runModel
    rw [if_neg (by simp [h])]
    simp only [hbr, hrh, hR]
    simp only [runPassesModel]
    rcases hC : compileStageModel env 0 with ⟨res, trC⟩
    rw [hC] at hc htrC
    simp only at hc htrC
    subst hc
    subst htrC
    simp [hv, hd]
  rw [hrun]
  refine ⟨rfl, rfl, rfl, ?_, ?_, ?_, by simp⟩
  · intro p c hm
    simp only [List.mem_cons, List.mem_append] at hm
    rcases hm with (h1 | h1 | h1) | h1
    · exact absurd h1 (by simp)
    · exact absurd h1 (by simp)
    · rcases readRecords_events env { st with running := true } _
        (by rw [hR]; exact h1) with ⟨q, hq⟩ | ⟨q, hq⟩ <;> simp at hq
    · simp at h1
  · intro i hm
    simp only [List.mem_cons, List.mem_append] at hm
    rcases hm with (h1 | h1 | h1) | h1
    · exact absurd h1 (by simp)
    · exact absurd h1 (by simp)
    · rcases readRecords_events env { st with running := true } _
        (by rw [hR]; exact h1) with ⟨q, hq⟩ | ⟨q, hq⟩ <;> simp at hq
    · simp at h1
  · intro hm
    simp only [List.mem_cons, List.mem_append] at hm
    rcases hm with (h1 | h1 | h1) | h1
    · exact absurd h1 (by simp)
    · exact absurd h1 (by simp)
    · rcases readRecords_events env { st with running := true } _
        (by rw [hR]; exact h1) with ⟨q, hq⟩ | ⟨q, hq⟩ <;> simp at hq
    · simp at h1

/-- C2 witness: the amended veto path on a concrete environment whose
`shouldEmit` tap returns `false`. -/
theorem C2_witness :
    (runModel vetoEnv 1 stWithRecordsOut).outcome =
      some (.ok (mkStats vetoEnv 0)) ∧
    (mkStats vetoEnv 0).startTime.isSome = true ∧
    (mkStats vetoEnv 0).endTime.isSome = true ∧
    (∀ p c, Ev.writeAsset p c ∉ (runModel vetoEnv 1 stWithRecordsOut).trace) ∧
    (∀ i, Ev.emitHook i ∉ (runModel vetoEnv 1 stWithRecordsOut).trace) ∧
    Ev.emitRecordsCall ∉ (runModel vetoEnv 1 stWithRecordsOut).trace ∧
    Ev.doneHook 0 ∈ (runModel vetoEnv 1 stWithRecordsOut).trace :=
  C2_veto_path vetoEnv 0 stWithRecordsOut
    { id := 0, assets := vetoEnv.madeAssets 0, needAdditionalPass := false }
    rfl rfl rfl rfl rfl rfl rfl

/-- Helper: the `writeOut` step never produces a record-persistence
event. -/
theorem writeOut_no_recordsCall (env : RunEnv) (o t : String) (a : Asset) :
    Ev.emitRecordsCall ∉ (writeOutModel env o t a).2.2 := by
  unfold writeOutModel
  by_cases hx : a.existsAt = some (env.join o t)
  · simp [hx]
  · cases hw : env.writeFileErr (env.join o t) <;> simp [hx, hw]

/-- Helper: one asset's emission never produces a record-persistence
event. -/
theorem emitOne_no_recordsCall (env : RunEnv) (o f : String) (a : Asset) :
    Ev.emitRecordsCall ∉ (emitOneModel env o f a).2.2 := by
  unfold emitOneModel
  have hwe := writeOut_no_recordsCall env o (stripQuery f) a
  by_cases hs : hasDirSep (stripQuery f) = true
  · simp only [hs, if_true]
    cases hm : env.mkdirpErr (env.join o (env.dirname (stripQuery f))) with
    | some m => simp [hm]
    | none =>
      rcases hW : writeOutModel env o (stripQuery f) a with ⟨a', e, evs⟩
      rw [hW] at hwe
      simp only at hwe
      simp [hm, hW]
      exact hwe
  · simp only [Bool.not_eq_true] at hs
    simp only [hs, Bool.false_eq_true, if_false]
    exact hwe

/-- Helper: the asset-write fan-out never produces a record-persistence
event. -/
theorem emitFiles_no_recordsCall (env : RunEnv) (o : String)
    (l : List (String × Asset)) :
    Ev.emitRecordsCall ∉ (emitFilesModel env o l).2.2 := by
  induction l with
  | nil => simp [emitFilesModel]
  | cons hd tl ih =>
    obtain ⟨file, a⟩ := hd
    unfold emitFilesModel
    rcases h1 : emitOneModel env o file a with ⟨a', e, evs⟩
    rcases h2 : emitFilesModel env o tl with ⟨rest', e2, evs2⟩
    have g1 := emitOne_no_recordsCall env o file a
    rw [h1] at g1
    simp only at g1
    rw [h2] at ih
    simp only at ih
    simp [List.mem_append]
    exact ⟨g1, ih⟩

/-- Helper: the whole emission stage never produces a record-persistence
event. -/
theorem emitAssets_no_recordsCall (env : RunEnv) (i : Nat)
    (st : CompilerState) (assets : List (String × Asset)) :
    Ev.emitRecordsCall ∉ (emitAssetsModel env i st assets).2.2 := by
  unfold emitAssetsModel
  cases he : env.emitHookErr i with
  | some m => simp [he]
  | none =>
    cases hm : env.mkdirpErr (env.getPath st.outputPath) with
    | some m2 => simp [he, hm]
    | none =>
      rcases hf : emitFilesModel env (env.getPath st.outputPath) assets with ⟨as', e, evs⟩
      have g := emitFiles_no_recordsCall env (env.getPath st.outputPath) assets
      rw [hf] at g
      simp only at g
      cases e with
      | some err => simp [he, hm, hf]; exact g
      | none =>
        cases ha : env.afterEmitErr i with
        | some m3 => simp [he, hm, hf, ha, List.mem_append]; exact g
        | none => simp [he, hm, hf, ha, List.mem_append]; exact g

/-- C5: when, after a successful emission, the sealed session's
`needAdditionalPass` hook reports that more work is needed, the
orchestrator sets the session's `needAdditionalPass` flag, invokes `done`
with a report for the current pass, then runs `additionalPass`, and loops
back into the compile stage whose session is brand-new (fresh identity,
flag initially clear); record persistence is not performed anywhere on
this looping pass. -/
theorem C5_additional_pass_loop (env : RunEnv) (st : CompilerState)
    (fuel i : Nat) (comp : Compilation) (trC : List Ev)
    (assets' : List (String × Asset)) (trE : List Ev)
    (hc : compileStageModel env i = (.ok comp, trC))
    (hv : env.shouldEmitResult i ≠ some false)
    (he : emitAssetsModel env i st comp.assets = (assets', none, trE))
    (hn : env.needAdditionalPassResult i = true)
    (hd : env.doneErr i = none)
    (ha : env.additionalPassErr i = none) :
    runPassesModel env st (fuel + 1) i =
      ((runPassesModel env st fuel (i + 1)).1,
       trC ++ [.shouldEmitHook i] ++ trE ++
         [.needAdditionalPassHook i, .doneHook i, .additionalPassHook i] ++
         (runPassesModel env st fuel (i + 1)).2.1,
       { id := i, assets := assets', needAdditionalPass := true } ::
         (runPassesModel env st fuel (i + 1)).2.2) ∧
    Ev.emitRecordsCall ∉
      trC ++ [.shouldEmitHook i] ++ trE ++
        [.needAdditionalPassHook i, .doneHook i, .additionalPassHook i] ∧
    (∀ comp', (compileStageModel env (i + 1)).1 = .ok comp' →
       comp'.id = i + 1 ∧ comp'.needAdditionalPass = false ∧ comp'.id ≠ comp.id) := by
  obtain ⟨hcomp, htrC⟩ := compileStage_ok env i comp (by rw [hc])
  rw [hc] at htrC
  simp only at htrC
  refine ⟨?_, ?_, ?_⟩
  · simp only [runPassesModel]
    rw [hc]
    simp only
    rw [if_neg hv]
    rw [he]
    simp only
    rw [if_pos hn]
    simp only [hd, ha]
    rcases hP : runPassesModel env st fuel (i + 1) with ⟨out, tr3, ss⟩
    subst hcomp
    simp
  · subst htrC
    have g := emitAssets_no_recordsCall env i st comp.assets
    rw [he] at g
    simp only at g
    simp [List.mem_append]
    exact g
  · intro comp' h'
    obtain ⟨hc', _⟩ := compileStage_ok env (i + 1) comp' h'
    subst hcomp
    subst hc'
    refine ⟨rfl, rfl, by simp⟩

/-- C5 witness: one additional pass on the concrete environment
`addPassEnv`, which requests exactly one extra pass after pass 0. -/
theorem C5_witness :
    runPassesModel addPassEnv st0 (1 + 1) 0 =
      ((runPassesModel addPassEnv st0 1 (0 + 1)).1,
       [Ev.beforeCompileHook 0, Ev.compileHook 0, Ev.thisCompilationHook 0,
        Ev.compilationHook 0, Ev.makeHook 0, Ev.finishStep 0, Ev.sealStep 0,
        Ev.afterCompileHook 0] ++ [Ev.shouldEmitHook 0] ++
         [Ev.emitHook 0, Ev.mkdirDir "/dist", Ev.afterEmitHook 0] ++
         [Ev.needAdditionalPassHook 0, Ev.doneHook 0, Ev.additionalPassHook 0] ++
         (runPassesModel addPassEnv st0 1 (0 + 1)).2.1,
       { id := 0, assets := [], needAdditionalPass := true } ::
         (runPassesModel addPassEnv st0 1 (0 + 1)).2.2) ∧
    Ev.emitRecordsCall ∉
      [Ev.beforeCompileHook 0, Ev.compileHook 0, Ev.thisCompilationHook 0,
       Ev.compilationHook 0, Ev.makeHook 0, Ev.finishStep 0, Ev.sealStep 0,
       Ev.afterCompileHook 0] ++ [Ev.shouldEmitHook 0] ++
        [Ev.emitHook 0, Ev.mkdirDir "/dist", Ev.afterEmitHook 0] ++
        [Ev.needAdditionalPassHook 0, Ev.doneHook 0, Ev.additionalPassHook 0] ∧
    (∀ comp', (compileStageModel addPassEnv (0 + 1)).1 = .ok comp' →
       comp'.id = 0 + 1 ∧ comp'.needAdditionalPass = false ∧
       comp'.id ≠ ({ id := 0, assets := addPassEnv.madeAssets 0,
                     needAdditionalPass := false } : Compilation).id) :=
  C5_additional_pass_loop addPassEnv st0 1 0
    { id := 0, assets := addPassEnv.madeAssets 0, needAdditionalPass := false }
    [Ev.beforeCompileHook 0, Ev.compileHook 0, Ev.thisCompilationHook 0,
     Ev.compilationHook 0, Ev.makeHook 0, Ev.finishStep 0, Ev.sealStep 0,
     Ev.afterCompileHook 0]
    [] [Ev.emitHook 0, Ev.mkdirDir "/dist", Ev.afterEmitHook 0]
    rfl (by decide) rfl rfl rfl rfl

/-- C6: for every produced asset, the name is stripped of any trailing
query-string suffix and joined with the output directory to get the
target path; if the asset's `existsAt` already equals that target no
write is performed and `emitted` is cleared; otherwise `existsAt` is
updated, `emitted` is set and the content — coerced to a byte buffer when
textual — is written to the target path. -/
theorem C6_emit_asset (env : RunEnv) (outPath file : String) (a : Asset)
    (hm : ∀ d, env.mkdirpErr d = none) :
    (a.existsAt = some (env.join outPath (stripQuery file)) →
       (emitOneModel env outPath file a).1 = { a with emitted := false } ∧
       ∀ p c, Ev.writeAsset p c ∉ (emitOneModel env outPath file a).2.2) ∧
    (a.existsAt ≠ some (env.join outPath (stripQuery file)) →
       (emitOneModel env outPath file a).1 =
         { a with existsAt := some (env.join outPath (stripQuery file)),
                  emitted := true } ∧
       Ev.writeAsset (env.join outPath (stripQuery file)) a.source.toBuffer ∈
         (emitOneModel env outPath file a).2.2) := by
  constructor
  · intro hx
    unfold emitOneModel writeOutModel
    by_cases hs : hasDirSep (stripQuery file) = true
    · simp [hs, hm, hx]
    · simp only [Bool.not_eq_true] at hs
      simp [hs, hx]
  · intro hx
    unfold emitOneModel writeOutModel
    by_cases hs : hasDirSep (stripQuery file) = true
    · cases hw : env.writeFileErr (env.join outPath (stripQuery file)) <;>
        simp [hs, hm, hx, hw]
    · simp only [Bool.not_eq_true] at hs
      cases hw : env.writeFileErr (env.join outPath (stripQuery file)) <;>
        simp [hs, hx, hw]

/-- C6 witness: a fresh asset with a query-string name is written to the
stripped, joined target path with its flags updated. -/
theorem C6_witness :
    (emitOneModel okEnv "/dist" "bundle.js?v=1" { source := .text "x" }).1 =
      { source := Content.text "x",
        existsAt := some (okEnv.join "/dist" (stripQuery "bundle.js?v=1")),
        emitted := true } ∧
    Ev.writeAsset (okEnv.join "/dist" (stripQuery "bundle.js?v=1"))
        (Content.text "x").toBuffer ∈
      (emitOneModel okEnv "/dist" "bundle.js?v=1" { source := .text "x" }).2.2 :=
  (C6_emit_asset okEnv "/dist" "bundle.js?v=1" { source := .text "x" }
    (fun _ => rfl)).2 (by simp)

/-- C7 counterexample: with a configured input path whose stat reports
nonexistence, `readRecords` completes without error but leaves the
previous (non-empty) in-memory records in place — it does not yield an
empty record store as the claim asserts for both cases. -/
theorem C7_counterexample :
    (readRecordsModel okEnv stOldRecords).2.1 = none ∧
    (readRecordsModel okEnv stOldRecords).1.records =
      Rec.obj [("old", Rec.num 1)] ∧
    Rec.obj [("old", Rec.num 1)] ≠ Rec.obj [] :=
  ⟨rfl, rfl, by simp⟩

/-- C7 (amended): `readRecords` with no configured input path completes
without error and sets the records to an empty store; with a configured
path whose stat reports nonexistence it completes without error and
leaves the in-memory records unmodified — hence still the empty store on
a fresh compiler, whose records start empty. -/
theorem C7_missing_records (env : RunEnv) (st : CompilerState) :
    (st.recordsInputPath = none →
       readRecordsModel env st = ({ st with records := .obj [] }, none, [])) ∧
    (∀ p, st.recordsInputPath = some p → env.statExists p = false →
       readRecordsModel env st = (st, none, [.statRecords p])) := by
  constructor
  · intro h
    unfold readRecordsModel
    rw [h]
  · intro p hp hs
    unfold readRecordsModel
    rw [hp]
    simp [hs]

/-- C7 witness: both branches on concrete compilers. -/
theorem C7_witness :
    readRecordsModel okEnv st0 = ({ st0 with records := .obj [] }, none, []) ∧
    readRecordsModel okEnv stOldRecords =
      (stOldRecords, none, [.statRecords "/prev/records.json"]) :=
  ⟨(C7_missing_records okEnv st0).1 rfl,
   (C7_missing_records okEnv stOldRecords).2 "/prev/records.json" rfl rfl⟩

/-- C8: a records file that exists but fails to parse aborts the build
before the compile stage (the trace stops at the record read), delivering
an error whose message carries the fixed "Cannot parse records: " prefix,
with the in-memory records — and every other field except the transient
`running` flag — unmodified. -/
theorem C8_parse_failure_aborts (env : RunEnv) (fuel : Nat)
    (st : CompilerState) (p content m : String)
    (h : st.running = false)
    (hbr : env.beforeRunErr = none)
    (hrh : env.runHookErr = none)
    (hp : st.recordsInputPath = some p)
    (hs : env.statExists p = true)
    (hr : env.readFile p = .ok content)
    (hj : env.parseJson content = .error m) :
    runModel env fuel st =
      { state := { st with running := false },
        outcome := some (.error (.external ("Cannot parse records: " ++ m))),
        trace := [.beforeRunHook, .runHook, .statRecords p, .readRecordsFile p],
        sessions := [] } := by
  unfold runModel
  rw [if_neg (by simp [h])]
  simp only [hbr, hrh]
  have hR : readRecordsModel env { st with running := true } =
      ({ st with running := true },
       some (.external ("Cannot parse records: " ++ m)),
       [.statRecords p, .readRecordsFile p]) := by
    unfold readRecordsModel
    simp [hp, hs, hr, hj]
  rw [hR]

/-- C8 witness: the malformed-records environment aborts the concrete
build with the prefixed message and an unchanged store. -/
theorem C8_witness :
    runModel badRecordsEnv 1 stOldRecords =
      { state := { stOldRecords with running := false },
        outcome := some (.error (.external
          ("Cannot parse records: " ++ "Unexpected token o in JSON at position 1"))),
        trace := [.beforeRunHook, .runHook, .statRecords "/prev/records.json",
                  .readRecordsFile "/prev/records.json"],
        sessions := [] } :=
  C8_parse_failure_aborts badRecordsEnv 1 stOldRecords "/prev/records.json"
    "not json" "Unexpected token o in JSON at position 1"
    rfl rfl rfl rfl rfl rfl rfl

/-- Helper: writing a field with `setAssoc` makes it the value found by a
subsequent lookup. -/
theorem lookup_setAssoc (fs : List (String × Rec)) (n : String) (v : Rec) :
    (setAssoc fs n v).lookup n = some v := by
  induction fs with
  | nil => simp [setAssoc]
  | cons hd tl ih =>
    obtain ⟨k, w⟩ := hd
    by_cases hk : k = n
    · simp [setAssoc, hk]
    · have hbe : (n == k) = false := by
        rw [beq_eq_false_iff_ne]
        exact fun hnk => hk hnk.symm
      simp [setAssoc, hk, List.lookup, hbe, ih]

/-- C9 counterexample: spawning a child named "manifest" at spawn index 1
into an empty parent store creates a fresh record but appends it at
position 0 of the list — the parent store has no entry at ("manifest", 1)
at all, so the child's records are not "the entry at that index". -/
theorem C9_counterexample :
    (createChildRecords (Rec.obj []) "manifest" 1).1 = Rec.obj [] ∧
    ((createChildRecords (Rec.obj []) "manifest" 1).2.getField "manifest").bind
        (fun v => v.index 1) = none ∧
    (createChildRecords (Rec.obj []) "manifest" 1).2 =
      Rec.obj [("manifest", Rec.arr [Rec.obj []])] :=
  ⟨rfl, rfl, rfl⟩

/-- C9 (amended): a pre-existing entry of the parent's store at the
child's (normalized name, spawn index) pair is reused as the child's
records, with its prior content retained and the parent store unchanged;
when no entry exists at that index, a fresh empty record is created and
appended at the end of the name's list — which is position `index`
exactly when the spawn index equals the list's current length (the
sequential spawn pattern). -/
theorem C9_child_records (records : Rec) (relName : String) (idx : Nat)
    (l : List Rec)
    (hl : records.getField relName = some (.arr l))
    (hobj : ∀ e ∈ l, ∃ fs, e = Rec.obj fs) :
    (∀ entry, l.get? idx = some entry →
       createChildRecords records relName idx = (entry, records)) ∧
    (l.get? idx = none →
       (createChildRecords records relName idx).1 = Rec.obj [] ∧
       (createChildRecords records relName idx).2.getField relName =
         some (.arr (l ++ [Rec.obj []])) ∧
       (idx = l.length →
          Rec.index (.arr (l ++ [Rec.obj []])) idx = some (Rec.obj []))) := by
  cases records with
  | null => simp [Rec.getField] at hl
  | bool b => simp [Rec.getField] at hl
  | num n => simp [Rec.getField] at hl
  | str s => simp [Rec.getField] at hl
  | arr items => simp [Rec.getField] at hl
  | obj fields =>
    constructor
    · intro entry hget
      obtain ⟨fs, hfs⟩ := hobj entry (List.get?_mem hget)
      subst hfs
      have hget2 : l[idx]? = some (Rec.obj fs) := by
        rw [← List.get?_eq_getElem?]
        exact hget
      unfold createChildRecords
      simp [hl, Rec.truthy, Rec.index, hget2]
    · intro hget
      have hget2 : l[idx]? = none := by
        rw [← List.get?_eq_getElem?]
        exact hget
      have hlk : List.lookup relName fields = some (Rec.arr l) := by
        simpa [Rec.getField] using hl
      have hpush : createChildRecords (Rec.obj fields) relName idx =
          (Rec.obj [],
           Rec.obj (setAssoc fields relName (Rec.arr (l ++ [Rec.obj []])))) := by
        unfold createChildRecords
        simp [hl, Rec.truthy, Rec.index, hget2, Rec.pushField, hlk]
      rw [hpush]
      refine ⟨rfl, ?_, ?_⟩
      · simp [Rec.getField, lookup_setAssoc]
      · intro hidx
        subst hidx
        simp [Rec.index]

/-- C9 witness: reuse of an existing entry at ("manifest", 0) with its
prior content, leaving the parent store untouched. -/
theorem C9_witness :
    createChildRecords
        (Rec.obj [("manifest", Rec.arr [Rec.obj [("k", Rec.num 5)]])])
        "manifest" 0 =
      (Rec.obj [("k", Rec.num 5)],
       Rec.obj [("manifest", Rec.arr [Rec.obj [("k", Rec.num 5)]])]) :=
  (C9_child_records
      (Rec.obj [("manifest", Rec.arr [Rec.obj [("k", Rec.num 5)]])])
      "manifest" 0 [Rec.obj [("k", Rec.num 5)]] rfl
      (by intro e he; rw [List.mem_singleton] at he; exact ⟨_, he⟩)).1
    (Rec.obj [("k", Rec.num 5)]) rfl

/-- C10 counterexample: a plugin passed to `createChildCompiler` that taps
`make` leaves the child's `make` hook with that tap — the seven excluded
hooks do not in general start on the child with no taps at all. -/
theorem C10_counterexample :
    createChildTaps emptyTaps [("make", 7)] "make" = [7] ∧
    ([7] : List Nat) ≠ [] :=
  ⟨by decide, by simp⟩

/-- C10 (amended): for every non-excluded hook the child receives a
by-value snapshot of the parent's taps at spawn time, so a tap registered
on the parent afterwards (one not already present) never appears on the
child; each excluded hook starts with exactly the taps that the plugins
applied at spawn registered on it — none at all when no plugins are
passed. -/
theorem C10_child_taps (parent : Taps) (plugins : List (String × Nat))
    (m : String) (t : Nat) (hm : m ∈ compilerHookNames) :
    (m ∉ excludedChildHooks →
       createChildTaps parent plugins m = parent m) ∧
    (m ∈ excludedChildHooks →
       createChildTaps parent plugins m = applyPlugins emptyTaps plugins m) ∧
    (plugins = [] → m ∈ excludedChildHooks →
       createChildTaps parent plugins m = []) ∧
    (t ∉ parent m → t ∉ applyPlugins emptyTaps plugins m →
       t ∈ tapOn parent m t m ∧ t ∉ createChildTaps parent plugins m) := by
  refine ⟨?_, ?_, ?_, ?_⟩
  · intro hex
    simp [createChildTaps, hm, hex]
  · intro hex
    simp [createChildTaps, hex]
  · rintro rfl hex
    simp [createChildTaps, applyPlugins, emptyTaps, hex]
  · intro h1 h2
    constructor
    · simp [tapOn, hm]
    · by_cases hex : m ∈ excludedChildHooks
      · simp only [createChildTaps]
        rw [if_neg (by simp [hex])]
        exact h2
      · simp only [createChildTaps]
        rw [if_pos ⟨hm, hex⟩]
        exact h1

/-- C10 witness: a parent with one `beforeRun` tap, a plugin tapping
`make`, and a fresh tap `2` added to the parent after spawning. -/
theorem C10_witness :
    ("beforeRun" ∉ excludedChildHooks →
       createChildTaps (fun n => if n = "beforeRun" then [1] else [])
           [("make", 7)] "beforeRun" =
         (fun n => if n = "beforeRun" then [1] else []) "beforeRun") ∧
    ("beforeRun" ∈ excludedChildHooks →
       createChildTaps (fun n => if n = "beforeRun" then [1] else [])
           [("make", 7)] "beforeRun" =
         applyPlugins emptyTaps [("make", 7)] "beforeRun") ∧
    ([("make", 7)] = ([] : List (String × Nat)) →
       "beforeRun" ∈ excludedChildHooks →
       createChildTaps (fun n => if n = "beforeRun" then [1] else [])
           [("make", 7)] "beforeRun" = []) ∧
    (2 ∉ (fun n => if n = "beforeRun" then [1] else []) "beforeRun" →
       2 ∉ applyPlugins emptyTaps [("make", 7)] "beforeRun" →
       2 ∈ tapOn (fun n => if n = "beforeRun" then [1] else []) "beforeRun" 2
             "beforeRun" ∧
       2 ∉ createChildTaps (fun n => if n = "beforeRun" then [1] else [])
             [("make", 7)] "beforeRun") :=
  C10_child_taps (fun n => if n = "beforeRun" then [1] else [])
    [("make", 7)] "beforeRun" 2 (by decide)

end Webpack
